import Mathlib

/-!
Verification of the bearer-injecting forward proxy in
`src/scripts/bearer_proxy.py`.

Bytes are modelled as `List Char` (the script works over latin-1 / ASCII
byte strings, where Python byte values and `Char` code points coincide).
Sockets are modelled by explicit streams: a socket's incoming traffic is a
list of chunks (Python `recv` results), and the upstream proxy is a map
from connection id (1-based, in the order connections are opened) to
`Option (List Bytes)` — `none` means `socket.create_connection` fails for
that attempt, `some chunks` means the connection succeeds and the upstream
answers the framed request with that chunk stream.
-/

namespace BearerProxy

abbrev Bytes := List Char

/-- Literal byte strings. -/
def bytes (s : String) : Bytes := s.data

def crlf : Bytes := bytes "\r\n"

def crlf2 : Bytes := bytes "\r\n\r\n"

/-- Python `sep in s` on byte strings. -/
def containsSeq (sep : Bytes) : Bytes → Bool
  | [] => sep.isPrefixOf []
  | c :: t => sep.isPrefixOf (c :: t) || containsSeq sep t

/-- Prefix of `s` before the first occurrence of `sep`
(Python `s.split(sep, 1)[0]` for non-empty `sep`). -/
def takeUntilSeq (sep : Bytes) : Bytes → Bytes
  | [] => []
  | c :: t => if sep.isPrefixOf (c :: t) then [] else c :: takeUntilSeq sep t

/-- Concatenation of a list of byte strings (Python `b"".join`). -/
def joinAll (ls : List Bytes) : Bytes := ls.foldr (fun a b => a ++ b) []

/-- `recv_until(sock, sep, limit)` from the source: accumulate chunks until
`sep` occurs in the buffer, the peer sends EOF (empty chunk / exhausted
stream), or the accumulated buffer exceeds `limit`.  The buffer is returned
in every case, oversized or not. -/
def recv_until (sep : Bytes) (limit : Nat) : List Bytes → Bytes → Bytes
  | [], buf => buf
  | c :: rest, buf =>
    if containsSeq sep buf then buf
    else if c = [] then buf
    else if (buf ++ c).length > limit then buf ++ c
    else recv_until sep limit rest (buf ++ c)

/-- `first_line_status(hdr)` from the source:
`hdr.split(b"\r\n", 1)[0] if hdr else b""`. -/
def first_line_status (hdr : Bytes) : Bytes :=
  if hdr = [] then [] else takeUntilSeq crlf hdr

/-- The acceptance test `b" 200 " in status` applied by `handle_client`
to the status line of each strategy attempt. -/
def statusAccepted (status : Bytes) : Bool :=
  containsSeq (bytes " 200 ") status

/-- Base64 alphabet. -/
def b64chars : Bytes :=
  bytes "ABCDEFGHIJKLMNOPQRSTUVWXYZabcdefghijklmnopqrstuvwxyz0123456789+/"

def b64char (n : Nat) : Char := b64chars.getD n '?'

/-- Standard base64 encoding of a byte sequence (`base64.b64encode`). -/
def b64encode : List Nat → Bytes
  | [] => []
  | [a] => [b64char (a / 4), b64char (a % 4 * 16), '=', '=']
  | [a, b] => [b64char (a / 4), b64char (a % 4 * 16 + b / 16),
               b64char (b % 16 * 4), '=']
  | a :: b :: c :: rest =>
      [b64char (a / 4), b64char (a % 4 * 16 + b / 16),
       b64char (b % 16 * 4 + c / 64), b64char (c % 64)] ++ b64encode rest

/-- Byte values of an ASCII byte string (for the ASCII inputs used here this
agrees with Python's `.encode("utf-8")`). -/
def asciiBytes (s : Bytes) : List Nat := s.map Char.toNat

/-- `mk_basic(user, pwd)` from the source:
`"Basic " + base64.b64encode(f"{user}:{pwd}".encode("utf-8"))`. -/
def mk_basic (user pwd : Bytes) : Bytes :=
  bytes "Basic " ++ b64encode (asciiBytes (user ++ bytes ":" ++ pwd))

/-- Token normalization from `handle_client` lines 57-60: strip a leading
`jwt_` tag if present. -/
def normalizeToken (t : Bytes) : Bytes :=
  if (bytes "jwt_").isPrefixOf t then t.drop 4 else t

/-- The ordered strategy list built in `handle_client` lines 62-77.
`basic_hdr` is `none` when the `basic_hdr=None` default applies; the
`b = []` guard mirrors Python's truthiness test `if basic_hdr:`. -/
def headers_sets (token : Bytes) (basic_hdr : Option Bytes)
    (also_auth_header : Bool) : List (List Bytes) :=
  [[bytes "Proxy-Authorization: Bearer " ++ token]]
  ++ (if also_auth_header then
        [[bytes "Proxy-Authorization: Bearer " ++ token,
          bytes "Authorization: Bearer " ++ token]]
      else [])
  ++ (match basic_hdr with
      | none => []
      | some b =>
        if b = [] then []
        else
          [[bytes "Proxy-Authorization: " ++ b]]
          ++ (if also_auth_header then
                [[bytes "Proxy-Authorization: " ++ b,
                  bytes "Authorization: " ++ b]]
              else []))

/-- The request bytes built by `try_connect_with_headers` (lines 41-46):
`CONNECT <hostport> HTTP/1.1`, `Host`, the candidate header lines,
`Proxy-Connection: keep-alive`, `Connection: keep-alive`, blank line. -/
def connect_frame (hostport : Bytes) (headers : List Bytes) : Bytes :=
  bytes "CONNECT " ++ hostport ++ bytes " HTTP/1.1\r\n"
  ++ bytes "Host: " ++ hostport ++ crlf
  ++ joinAll (headers.map (fun h => h ++ crlf))
  ++ bytes "Proxy-Connection: keep-alive\r\nConnection: keep-alive\r\n\r\n"

/-- An upstream model: connection id (1-based, in opening order) to `none`
(connect fails) or `some chunks` (the chunk stream the upstream answers
with after receiving the framed request). -/
abbrev Upstream := Nat → Option (List Bytes)

/-- The response `try_connect_with_headers` reads on connection `i`. -/
def respOf (up : Upstream) (i : Nat) : Bytes :=
  recv_until crlf2 65536 ((up i).getD []) []

/-- The status line observed on connection `i`. -/
def statusOf (up : Upstream) (i : Nat) : Bytes :=
  first_line_status (respOf up i)

/-- Observable state accumulated by the strategy loop: which framed request
was sent on which connection, the status line of each attempt, which
upstream connections were closed inside the loop, and how many were opened
in total (the pre-loop connection counts as the first). -/
structure NegoState where
  framed : List (Nat × Bytes)
  statuses : List Bytes
  closed : List Nat
  opened : Nat
  deriving DecidableEq

/-- Outcome of the strategy loop in `handle_client` lines 84-99.
`established connId lastStatus`: some attempt saw `" 200 "` and the relay
runs on connection `connId`.  `rejected connId lastStatus`: every strategy
was tried without success; `connId` is the connection left open by the
final reconnection at line 99.  `errored`: an exception escaped (missing
request-line token, or a reconnection failure), reaching the generic
`except` handler. -/
inductive NegoOutcome where
  | established (connId : Nat) (lastStatus : Bytes)
  | rejected (connId : Nat) (lastStatus : Bytes)
  | errored
  deriving DecidableEq

/-- The `for hs in headers_sets` loop of `handle_client` (lines 84-99),
called with connection `connId` already open.  Per attempt: evaluate
`first.split(b" ")[1]` (an exception when the request line has no second
token), frame and send the CONNECT request, read the response, accept on
`" 200 "` in the status line, otherwise close the connection and open a
fresh one for the next strategy. -/
def negotiate (up : Upstream) (targetTok : Option Bytes) :
    List (List Bytes) → Nat → Bytes → NegoState → NegoOutcome × NegoState
  | [], connId, lastStatus, st => (.rejected connId lastStatus, st)
  | hs :: rest, connId, _, st =>
    match targetTok with
    | none => (.errored, st)
    | some tgt =>
      let frame := connect_frame tgt hs
      let status := statusOf up connId
      let st1 : NegoState :=
        { st with framed := st.framed ++ [(connId, frame)],
                  statuses := st.statuses ++ [status] }
      if statusAccepted status then (.established connId status, st1)
      else
        let st2 : NegoState := { st1 with closed := st1.closed ++ [connId] }
        match up (connId + 1) with
        | none => (.errored, st2)
        | some _ =>
          negotiate up targetTok rest (connId + 1) status
            { st2 with opened := st2.opened + 1 }

def response500 : Bytes := bytes "HTTP/1.1 500 Internal Server Error\r\n\r\n"

def resp502line : Bytes := bytes "HTTP/1.1 502 Bad Gateway"

def syntheticEstablished : Bytes := bytes "HTTP/1.1 200 Connection Established\r\n\r\n"

/-- The `timeout=30` argument of both `socket.create_connection` calls. -/
def connect_timeout_seconds : Nat := 30

/-- What a client can observe of `handle_client` up to the start of the
relay: the bytes written back to it, whether (and on which upstream
connection) the relay started, the negotiation trace, and whether the
client socket is closed when the handler finishes. -/
structure ClientObs where
  sent : Bytes
  relayConn : Option Nat
  opened : Nat
  closed : List Nat
  framed : List (Nat × Bytes)
  statuses : List Bytes
  clientClosed : Bool
  deriving DecidableEq

/-- `handle_client` (lines 51-111) up to the relay phase.  `clientChunks`
is the client's incoming byte stream; `up` is the upstream model.  Mirrors
the source: read the first message, close silently if it is empty,
normalize the token, build the strategy list, open the first upstream
connection (a failure raises, reaching the `except` handler's best-effort
`500`), then run the strategy loop; on exhaustion send the last status (or
a generic 502) and close both sides. -/
def handle_client (clientChunks : List Bytes) (bearer_raw : Bytes)
    (basic_hdr : Option Bytes) (also_auth_header : Bool)
    (up : Upstream) : ClientObs :=
  let first := recv_until crlf2 65536 clientChunks []
  if first = [] then
    { sent := [], relayConn := none, opened := 0, closed := [],
      framed := [], statuses := [], clientClosed := true }
  else
    match up 1 with
    | none =>
      { sent := response500, relayConn := none, opened := 0, closed := [],
        framed := [], statuses := [], clientClosed := true }
    | some _ =>
      match negotiate up ((first.splitOn ' ')[1]?)
          (headers_sets (normalizeToken bearer_raw) basic_hdr also_auth_header)
          1 [] { framed := [], statuses := [], closed := [], opened := 1 } with
      | (.established c _, st) =>
        { sent := syntheticEstablished, relayConn := some c,
          opened := st.opened, closed := st.closed, framed := st.framed,
          statuses := st.statuses, clientClosed := true }
      | (.rejected c l, st) =>
        { sent := (if l = [] then resp502line else l) ++ crlf2,
          relayConn := none, opened := st.opened, closed := st.closed ++ [c],
          framed := st.framed, statuses := st.statuses, clientClosed := true }
      | (.errored, st) =>
        { sent := response500, relayConn := none, opened := st.opened,
          closed := st.closed, framed := st.framed, statuses := st.statuses,
          clientClosed := true }

/-- The strategy list as the whole program builds it: `__main__` line 151
passes `mk_basic(u, args.bearer)` — the raw, un-normalized bearer — as the
Basic credential whenever `--with-basic` is set and a username is present,
and `handle_client` then normalizes the token only for the Bearer
headers. -/
def programStrategies (u bearer : Bytes) (with_basic also_auth : Bool) :
    List (List Bytes) :=
  headers_sets (normalizeToken bearer)
    (if with_basic ∧ u ≠ [] then some (mk_basic u bearer) else none)
    also_auth

/-- The strategy list the claim describes: the normalized token is the one
used in every constructed header, including as the Basic password. -/
def claimStrategies (u bearer : Bytes) (with_basic also_auth : Bool) :
    List (List Bytes) :=
  headers_sets (normalizeToken bearer)
    (if with_basic ∧ u ≠ [] then some (mk_basic u (normalizeToken bearer)) else none)
    also_auth

/-- Result of a run of `pump`'s loop over a trace of `select` rounds:
the bytes written to each side and whether the loop has exited (the
`finally` block, which shuts down and closes both sockets, runs exactly
when the loop exits). -/
structure PumpResult where
  toB : Bytes
  toA : Bytes
  terminated : Bool
  deriving DecidableEq

/-- One `select` round in `pump`: for each of the two sockets, `none` means
the socket was not ready, `some []` means it was ready and `recv` returned
no data (peer EOF), `some d` means `recv` returned `d`.  A round
`(none, none)` is a 60-second `select` timeout. -/
abbrev PumpRound := Option Bytes × Option Bytes

/-- The `while True` loop of `pump` (lines 8-17) over a trace of `select`
rounds.  Inside one round the source handles side `a` first and `break`s
on a zero-length read before looking at side `b`; an empty `r` (timeout)
falls through both `if`s and re-enters the loop.  An exhausted trace with
the loop still running yields `terminated := false`. -/
def pumpRun : List PumpRound → PumpResult
  | [] => { toB := [], toA := [], terminated := false }
  | (da, db) :: rest =>
    match da with
    | some [] => { toB := [], toA := [], terminated := true }
    | some (c :: d) =>
      match db with
      | some [] => { toB := c :: d, toA := [], terminated := true }
      | some (c2 :: e) =>
        let r := pumpRun rest
        { toB := (c :: d) ++ r.toB, toA := (c2 :: e) ++ r.toA,
          terminated := r.terminated }
      | none =>
        let r := pumpRun rest
        { toB := (c :: d) ++ r.toB, toA := r.toA, terminated := r.terminated }
    | none =>
      match db with
      | some [] => { toB := [], toA := [], terminated := true }
      | some (c2 :: e) =>
        let r := pumpRun rest
        { toB := r.toB, toA := (c2 :: e) ++ r.toA, terminated := r.terminated }
      | none => pumpRun rest

/-- A trace in which no `recv` call returns zero bytes (no peer EOF). -/
def noEof (evs : List PumpRound) : Prop :=
  ∀ e ∈ evs, e.1 ≠ some [] ∧ e.2 ≠ some []

/-- ASCII lower-casing of one character. -/
def asciiLower (c : Char) : Char :=
  if 'A' ≤ c ∧ c ≤ 'Z' then Char.ofNat (c.toNat + 32) else c

/-- A header line whose name is `Proxy-Authorization`, matched
case-insensitively. -/
def isProxyAuthLine (h : Bytes) : Bool :=
  (bytes "proxy-authorization:").isPrefixOf (h.map asciiLower)

/-- Number of `Proxy-Authorization` header lines in a line list. -/
def countProxyAuth (ls : List Bytes) : Nat :=
  (ls.filter (fun h => isProxyAuthLine h)).length

/-- Modelled from the spec: the repository's second, richer near-duplicate
of `bearer_proxy.py` (284 repository lines against the 151 present under
`src/`) contains the non-CONNECT forwarded-request framer of spec section
4.2, which is absent from `src/`.  Its header-line sequence, from the
spec's words: the original request line unchanged, every original header
line except any `Proxy-Authorization` header (matched case-insensitively),
the candidate header set, then `Connection: keep-alive`. -/
def forwardFrameLines (reqLine : Bytes) (headerLines strategy : List Bytes) :
    List Bytes :=
  [reqLine]
  ++ headerLines.filter (fun h => !isProxyAuthLine h)
  ++ strategy
  ++ [bytes "Connection: keep-alive"]

/-- Modelled from the spec: the exact byte sequence of the forwarded
(non-CONNECT) upstream request — each line terminated by CRLF, then the
empty-line terminator, then the buffered body bytes. -/
def forward_frame (reqLine : Bytes) (headerLines strategy : List Bytes)
    (body : Bytes) : Bytes :=
  joinAll ((forwardFrameLines reqLine headerLines strategy).map
    (fun l => l ++ crlf))
  ++ crlf ++ body

/-- The first CRLF-terminated line of a response, as the acceptance claim
describes it (the whole response when no CRLF occurs). -/
def firstCrlfLine (r : Bytes) : Bytes := takeUntilSeq crlf r

/-- A synthetic HTTP/1.1 server-error (5xx) response. -/
def is5xxResponse (r : Bytes) : Bool :=
  (bytes "HTTP/1.1 5").isPrefixOf r

/-! ## Helper lemmas -/

lemma headers_sets_ne_nil (t : Bytes) (bh : Option Bytes) (aa : Bool) :
    headers_sets t bh aa ≠ [] := by
  simp [headers_sets]

lemma negotiate_none_target (up : Upstream) (hs : List Bytes)
    (rest : List (List Bytes)) (cid : Nat) (ls : Bytes) (st : NegoState) :
    negotiate up none (hs :: rest) cid ls st = (.errored, st) := rfl

/-! ## Claim theorems -/

/-- C3: the Header-Strategy Builder yields exactly the ordered strategy
list the claim describes, for each of the four input combinations: token
only; token with the `also_auth_header` flag; token with a Basic
credential; token with both. -/
theorem claim_C3_strategy_order (t b : Bytes) (hb : b ≠ []) :
    headers_sets t none false = [[bytes "Proxy-Authorization: Bearer " ++ t]]
    ∧ headers_sets t none true =
        [[bytes "Proxy-Authorization: Bearer " ++ t],
         [bytes "Proxy-Authorization: Bearer " ++ t,
          bytes "Authorization: Bearer " ++ t]]
    ∧ headers_sets t (some b) false =
        [[bytes "Proxy-Authorization: Bearer " ++ t],
         [bytes "Proxy-Authorization: " ++ b]]
    ∧ headers_sets t (some b) true =
        [[bytes "Proxy-Authorization: Bearer " ++ t],
         [bytes "Proxy-Authorization: Bearer " ++ t,
          bytes "Authorization: Bearer " ++ t],
         [bytes "Proxy-Authorization: " ++ b],
         [bytes "Proxy-Authorization: " ++ b,
          bytes "Authorization: " ++ b]] := by
  refine ⟨rfl, rfl, ?_, ?_⟩ <;> simp [headers_sets, hb]

/-- Witness for C3 at a concrete token and Basic credential. -/
theorem claim_C3_strategy_order_witness :
    bytes "Basic dTpw" ≠ []
    ∧ (headers_sets (bytes "abc123") none false =
        [[bytes "Proxy-Authorization: Bearer " ++ bytes "abc123"]]
      ∧ headers_sets (bytes "abc123") none true =
        [[bytes "Proxy-Authorization: Bearer " ++ bytes "abc123"],
         [bytes "Proxy-Authorization: Bearer " ++ bytes "abc123",
          bytes "Authorization: Bearer " ++ bytes "abc123"]]
      ∧ headers_sets (bytes "abc123") (some (bytes "Basic dTpw")) false =
        [[bytes "Proxy-Authorization: Bearer " ++ bytes "abc123"],
         [bytes "Proxy-Authorization: " ++ bytes "Basic dTpw"]]
      ∧ headers_sets (bytes "abc123") (some (bytes "Basic dTpw")) true =
        [[bytes "Proxy-Authorization: Bearer " ++ bytes "abc123"],
         [bytes "Proxy-Authorization: Bearer " ++ bytes "abc123",
          bytes "Authorization: Bearer " ++ bytes "abc123"],
         [bytes "Proxy-Authorization: " ++ bytes "Basic dTpw"],
         [bytes "Proxy-Authorization: " ++ bytes "Basic dTpw",
          bytes "Authorization: " ++ bytes "Basic dTpw"]]) :=
  ⟨by decide, claim_C3_strategy_order (bytes "abc123") (bytes "Basic dTpw") (by decide)⟩

/-- C2 (code bug): `pump` passes 60 seconds to `select` but never acts on
a timeout: an empty ready set falls through both `if` statements and the
`while True` loop re-enters `select`.  After any number `n` of consecutive
60-second idle timeout rounds the relay has not terminated, no socket has
been closed, and no bytes have moved — the configured idle threshold never
tears the relay down. -/
theorem claim_C2_idle_timeout_not_enforced (n : Nat) :
    pumpRun (List.replicate n ((none, none) : PumpRound)) =
      { toB := [], toA := [], terminated := false } := by
  induction n with
  | zero => rfl
  | succ n ih => simpa [pumpRun, List.replicate] using ih

/-- C9 counterexample: with `--with-basic` set and a username present,
`__main__` builds the Basic credential from the raw bearer
(`mk_basic(u, args.bearer)`, line 151), so for the token `jwt_abc123` the
constructed Basic strategy header encodes `u:jwt_abc123` — the `jwt_`
prefix is not stripped there, and the strategy list differs from the one
in which the normalized token is used in every constructed header. -/
theorem claim_C9_counterexample :
    programStrategies (bytes "u") (bytes "jwt_abc123") true false =
      [[bytes "Proxy-Authorization: Bearer abc123"],
       [bytes "Proxy-Authorization: Basic dTpqd3RfYWJjMTIz"]]
    ∧ claimStrategies (bytes "u") (bytes "jwt_abc123") true false =
      [[bytes "Proxy-Authorization: Bearer abc123"],
       [bytes "Proxy-Authorization: Basic dTphYmMxMjM="]]
    ∧ programStrategies (bytes "u") (bytes "jwt_abc123") true false ≠
      claimStrategies (bytes "u") (bytes "jwt_abc123") true false := by
  refine ⟨by decide, by decide, by decide⟩

/-- C9 as amended: the `jwt_` prefix is stripped before use in the Bearer
headers, a token without the prefix is used unchanged, and the Basic
credential — built at startup as `mk_basic(username, raw bearer)` — uses
the raw, unstripped token as its password. -/
theorem claim_C9_amended :
    (∀ bearer, (bytes "jwt_").isPrefixOf bearer = true →
       normalizeToken bearer = bearer.drop 4)
    ∧ (∀ bearer, (bytes "jwt_").isPrefixOf bearer = false →
       normalizeToken bearer = bearer)
    ∧ (∀ u bearer, u ≠ [] →
       programStrategies u bearer true false =
         [[bytes "Proxy-Authorization: Bearer " ++ normalizeToken bearer],
          [bytes "Proxy-Authorization: " ++ mk_basic u bearer]]) := by
  refine ⟨?_, ?_, ?_⟩
  · intro bearer h; simp [normalizeToken, h]
  · intro bearer h; simp [normalizeToken, h]
  · intro u bearer hu
    simp [programStrategies, hu, headers_sets, mk_basic, bytes]

/-- Witness for C9's amended statement at concrete inputs. -/
theorem claim_C9_amended_witness :
    ((bytes "jwt_").isPrefixOf (bytes "jwt_abc123") = true
      ∧ normalizeToken (bytes "jwt_abc123") = (bytes "jwt_abc123").drop 4)
    ∧ ((bytes "jwt_").isPrefixOf (bytes "abc123") = false
      ∧ normalizeToken (bytes "abc123") = bytes "abc123")
    ∧ (bytes "u" ≠ []
      ∧ programStrategies (bytes "u") (bytes "jwt_abc123") true false =
        [[bytes "Proxy-Authorization: Bearer " ++ normalizeToken (bytes "jwt_abc123")],
         [bytes "Proxy-Authorization: " ++ mk_basic (bytes "u") (bytes "jwt_abc123")]]) :=
  ⟨⟨by decide, claim_C9_amended.1 (bytes "jwt_abc123") (by decide)⟩,
   ⟨by decide, claim_C9_amended.2.1 (bytes "abc123") (by decide)⟩,
   ⟨by decide, claim_C9_amended.2.2 (bytes "u") (bytes "jwt_abc123") (by decide)⟩⟩

/-- C8: when the TCP connection to the upstream proxy cannot be
established (the `timeout=30` `create_connection` at line 81 raises), the
generic `except` handler sends the client a synthetic 5xx error response —
the concrete bytes are `HTTP/1.1 500 Internal Server Error` — and the
client connection is then closed, with no upstream connection opened. -/
theorem claim_C8_connect_failure (clientChunks : List Bytes)
    (bearer : Bytes) (bh : Option Bytes) (aa : Bool) (up : Upstream)
    (hfirst : recv_until crlf2 65536 clientChunks [] ≠ [])
    (hconn : up 1 = none) :
    handle_client clientChunks bearer bh aa up =
      { sent := response500, relayConn := none, opened := 0, closed := [],
        framed := [], statuses := [], clientClosed := true }
    ∧ is5xxResponse response500 = true
    ∧ connect_timeout_seconds = 30 := by
  refine ⟨?_, by decide, rfl⟩
  simp [handle_client, hfirst, hconn]

/-- Witness for C8 with a concrete well-formed request and an upstream
that refuses the TCP connection. -/
theorem claim_C8_connect_failure_witness :
    (recv_until crlf2 65536 [bytes "CONNECT e:443 HTTP/1.1\r\n\r\n"] [] ≠ []
      ∧ ((fun _ => none : Upstream) 1 = none))
    ∧ (handle_client [bytes "CONNECT e:443 HTTP/1.1\r\n\r\n"] (bytes "tok")
          none false (fun _ => none) =
        { sent := response500, relayConn := none, opened := 0, closed := [],
          framed := [], statuses := [], clientClosed := true }
      ∧ is5xxResponse response500 = true
      ∧ connect_timeout_seconds = 30) :=
  ⟨⟨by decide, rfl⟩,
   claim_C8_connect_failure [bytes "CONNECT e:443 HTTP/1.1\r\n\r\n"]
     (bytes "tok") none false (fun _ => none) (by decide) rfl⟩

lemma negotiate_established_accepted (up : Upstream) (tgt : Bytes) :
    ∀ (ss : List (List Bytes)) (cid : Nat) (ls : Bytes) (st : NegoState)
      (c : Nat) (l : Bytes) (st2 : NegoState),
      negotiate up (some tgt) ss cid ls st = (.established c l, st2) →
      statusAccepted (statusOf up c) = true ∧ l = statusOf up c := by
  intro ss
  induction ss with
  | nil =>
    intro cid ls st c l st2 h
    simp [negotiate] at h
  | cons hs rest ih =>
    intro cid ls st c l st2 h
    simp only [negotiate] at h
    split at h
    next hacc =>
      simp only [Prod.mk.injEq, NegoOutcome.established.injEq] at h
      obtain ⟨⟨hc, hl⟩, -⟩ := h
      subst hc; subst hl
      exact ⟨hacc, rfl⟩
    next =>
      cases hup : up (cid + 1) with
      | none => rw [hup] at h; simp at h
      | some cs =>
        rw [hup] at h
        exact ih (cid + 1) (statusOf up cid) _ c l st2 h

/-- C10: a strategy attempt is treated as successful exactly when the
first CRLF-terminated line of the upstream response contains the
space-delimited byte substring `" 200 "`: the code's acceptance test on
`first_line_status` coincides with that characterization for every
response, an empty response is never accepted, a status code of `1200` or
`2004` is not accepted, and the strategy loop establishes a connection
only when its response's status line passes this test. -/
theorem claim_C10_acceptance :
    (∀ resp, statusAccepted (first_line_status resp) = true ↔
       containsSeq (bytes " 200 ") (firstCrlfLine resp) = true)
    ∧ statusAccepted (first_line_status []) = false
    ∧ statusAccepted (first_line_status (bytes "HTTP/1.1 1200 OK\r\n\r\n")) = false
    ∧ statusAccepted (first_line_status (bytes "HTTP/1.1 2004 Weird\r\n\r\n")) = false
    ∧ statusAccepted (first_line_status (bytes "HTTP/1.1 200 Connection Established\r\n\r\n")) = true
    ∧ (∀ up tgt ss cid ls st c l st2,
        negotiate up (some tgt) ss cid ls st = (.established c l, st2) →
        statusAccepted (statusOf up c) = true) := by
  refine ⟨?_, by decide, by decide, by decide, by decide, ?_⟩
  · intro resp
    cases resp with
    | nil => decide
    | cons c t => simp [first_line_status, firstCrlfLine, statusAccepted]
  · intro up tgt ss cid ls st c l st2 h
    exact (negotiate_established_accepted up tgt ss cid ls st c l st2 h).1

/-- Witness for C10: a concrete one-strategy negotiation whose upstream
answers `200` is established, and the theorem yields the acceptance of
its status line. -/
theorem claim_C10_acceptance_witness :
    negotiate (fun _ => some [bytes "HTTP/1.1 200 OK\r\n\r\n"])
        (some (bytes "e:443")) [[bytes "X"]] 1 []
        { framed := [], statuses := [], closed := [], opened := 1 } =
      (.established 1 (bytes "HTTP/1.1 200 OK"),
       { framed := [(1, connect_frame (bytes "e:443") [bytes "X"])],
         statuses := [bytes "HTTP/1.1 200 OK"], closed := [], opened := 1 })
    ∧ statusAccepted
        (statusOf (fun _ => some [bytes "HTTP/1.1 200 OK\r\n\r\n"]) 1) = true :=
  ⟨by decide,
   claim_C10_acceptance.2.2.2.2.2 (fun _ => some [bytes "HTTP/1.1 200 OK\r\n\r\n"])
     (bytes "e:443") [[bytes "X"]] 1 []
     { framed := [], statuses := [], closed := [], opened := 1 }
     1 (bytes "HTTP/1.1 200 OK")
     { framed := [(1, connect_frame (bytes "e:443") [bytes "X"])],
       statuses := [bytes "HTTP/1.1 200 OK"], closed := [], opened := 1 }
     (by decide)⟩

/-- C4 counterexample: a first message whose request line has fewer than
three space-separated tokens does not close the client connection with
zero bytes written.  With a single token (`X`), `first.split(b" ")[1]`
raises and the handler writes a 500 response; with two tokens
(`GET /x`), the code proceeds to upstream negotiation and, here, writes a
502 response.  In both cases bytes are written to the client. -/
theorem claim_C4_counterexample :
    (handle_client [bytes "X\r\n\r\n"] (bytes "tok") none false
        (fun _ => some [])).sent = response500
    ∧ (handle_client [bytes "GET /x\r\n\r\n"] (bytes "tok") none false
        (fun _ => some [])).sent = resp502line ++ crlf2
    ∧ response500 ≠ [] ∧ resp502line ++ crlf2 ≠ [] :=
  ⟨by decide, by decide, by decide, by decide⟩

/-- C4 as amended: only an empty first read closes the client silently
with zero bytes written; a first message with no space at all (so
`split(b" ")[1]` raises) produces a best-effort 500 response before the
close; and the 65536-byte bound only stops further reading — an over-limit
buffer is returned as-is, not treated as malformed. -/
theorem claim_C4_amended :
    (∀ chunks bearer bh aa up,
        recv_until crlf2 65536 chunks [] = [] →
        handle_client chunks bearer bh aa up =
          { sent := [], relayConn := none, opened := 0, closed := [],
            framed := [], statuses := [], clientClosed := true })
    ∧ (∀ chunks bearer bh aa up cs,
        recv_until crlf2 65536 chunks [] ≠ [] →
        ((recv_until crlf2 65536 chunks []).splitOn ' ')[1]? = none →
        up 1 = some cs →
        handle_client chunks bearer bh aa up =
          { sent := response500, relayConn := none, opened := 1, closed := [],
            framed := [], statuses := [], clientClosed := true })
    ∧ (∀ sep limit (c : Bytes) rest buf,
        containsSeq sep buf = false → c ≠ [] → (buf ++ c).length > limit →
        recv_until sep limit (c :: rest) buf = buf ++ c) := by
  refine ⟨?_, ?_, ?_⟩
  · intro chunks bearer bh aa up h
    simp [handle_client, h]
  · intro chunks bearer bh aa up cs h1 h2 h3
    obtain ⟨hs, rest, hrw⟩ : ∃ hs rest,
        headers_sets (normalizeToken bearer) bh aa = hs :: rest := by
      cases hcase : headers_sets (normalizeToken bearer) bh aa with
      | nil => exact absurd hcase (headers_sets_ne_nil _ _ _)
      | cons a b => exact ⟨a, b, rfl⟩
    simp [handle_client, h1, h2, h3, hrw, negotiate]
  · intro sep limit c rest buf h1 h2 h3
    simp [recv_until, h1, h2, h3]
    intro hle
    rw [List.length_append] at h3
    exact absurd hle (by omega)

/-- Witness for C4's amended statement at concrete inputs: an empty client
stream, a one-token request line, and an over-limit read. -/
theorem claim_C4_amended_witness :
    (recv_until crlf2 65536 [] [] = []
      ∧ handle_client [] (bytes "tok") none false (fun _ => some []) =
          { sent := [], relayConn := none, opened := 0, closed := [],
            framed := [], statuses := [], clientClosed := true })
    ∧ (recv_until crlf2 65536 [bytes "X\r\n\r\n"] [] ≠ []
      ∧ ((recv_until crlf2 65536 [bytes "X\r\n\r\n"] []).splitOn ' ')[1]? = none
      ∧ handle_client [bytes "X\r\n\r\n"] (bytes "tok") none false
          (fun _ => some []) =
          { sent := response500, relayConn := none, opened := 1, closed := [],
            framed := [], statuses := [], clientClosed := true })
    ∧ (containsSeq (bytes "\r\n\r\n") (bytes "abcde") = false
      ∧ recv_until (bytes "\r\n\r\n") 6 [bytes "fg", bytes "hi"] (bytes "abcde") =
          bytes "abcde" ++ bytes "fg") :=
  ⟨⟨by decide, claim_C4_amended.1 [] (bytes "tok") none false (fun _ => some []) (by decide)⟩,
   ⟨by decide, by decide,
    claim_C4_amended.2.1 [bytes "X\r\n\r\n"] (bytes "tok") none false
      (fun _ => some []) [] (by decide) (by decide) rfl⟩,
   ⟨by decide,
    claim_C4_amended.2.2 (bytes "\r\n\r\n") 6 (bytes "fg") [bytes "hi"]
      (bytes "abcde") (by decide) (by decide) (by decide)⟩⟩

lemma negotiate_framed_ids (up : Upstream) (topt : Option Bytes) :
    ∀ (ss : List (List Bytes)) (cid : Nat) (ls : Bytes) (st : NegoState),
      ∃ ext, (negotiate up topt ss cid ls st).2.framed = st.framed ++ ext
        ∧ ext.map Prod.fst = List.range' cid ext.length := by
  intro ss
  induction ss with
  | nil => intro cid ls st; exact ⟨[], by simp [negotiate], by simp⟩
  | cons hs rest ih =>
    intro cid ls st
    cases topt with
    | none => exact ⟨[], by simp [negotiate], by simp⟩
    | some tgt =>
      by_cases hacc : statusAccepted (statusOf up cid) = true
      · exact ⟨[(cid, connect_frame tgt hs)], by simp [negotiate, hacc], by simp⟩
      · cases hup : up (cid + 1) with
        | none =>
          exact ⟨[(cid, connect_frame tgt hs)],
            by simp [negotiate, hacc, hup], by simp⟩
        | some cs =>
          obtain ⟨ext2, he, hm⟩ := ih (cid + 1) (statusOf up cid)
            { framed := st.framed ++ [(cid, connect_frame tgt hs)],
              statuses := st.statuses ++ [statusOf up cid],
              closed := st.closed ++ [cid], opened := st.opened + 1 }
          refine ⟨(cid, connect_frame tgt hs) :: ext2, ?_, ?_⟩
          · simp only [negotiate, hacc, hup]
            simp only [Bool.not_eq_true] at hacc
            simp [hacc, he, List.append_assoc]
          · simp [hm, List.range'_succ]

/-- C5: on an accepted CONNECT attempt the client is sent exactly the
synthetic `HTTP/1.1 200 Connection Established` bytes — never the
upstream's own response — and the relay then moves bytes verbatim: over
any trace of `select` rounds without a peer EOF, everything read from one
side is written, in order and unmodified, to the other, and a zero-length
read on the client side terminates the relay. -/
theorem claim_C5_tunnel_success :
    (∀ chunks bearer bh aa up c,
        (handle_client chunks bearer bh aa up).relayConn = some c →
        (handle_client chunks bearer bh aa up).sent = syntheticEstablished)
    ∧ (∀ evs, noEof evs →
        (pumpRun evs).toB = joinAll (evs.filterMap Prod.fst)
        ∧ (pumpRun evs).toA = joinAll (evs.filterMap Prod.snd))
    ∧ (∀ (x : Option Bytes) rest,
        pumpRun ((some [], x) :: rest) =
          { toB := [], toA := [], terminated := true }) := by
  refine ⟨?_, ?_, ?_⟩
  · intro chunks bearer bh aa up c h
    by_cases hfst : recv_until crlf2 65536 chunks [] = []
    · simp [handle_client, hfst] at h
    · cases hup : up 1 with
      | none => simp [handle_client, hfst, hup] at h
      | some cs =>
        rcases hneg : negotiate up ((recv_until crlf2 65536 chunks []).splitOn ' ')[1]?
            (headers_sets (normalizeToken bearer) bh aa) 1 []
            { framed := [], statuses := [], closed := [], opened := 1 }
          with ⟨out, st⟩
        cases out with
        | established c2 l => simp [handle_client, hfst, hup, hneg]
        | rejected c2 l => simp [handle_client, hfst, hup, hneg] at h
        | errored => simp [handle_client, hfst, hup, hneg] at h
  · intro evs h
    induction evs with
    | nil => simp [pumpRun, joinAll]
    | cons e rest ih =>
      have hrest : noEof rest := fun x hx => h x (List.mem_cons_of_mem _ hx)
      have he1 : e.1 ≠ some [] := (h e (List.mem_cons_self _ _)).1
      have he2 : e.2 ≠ some [] := (h e (List.mem_cons_self _ _)).2
      obtain ⟨ihB, ihA⟩ := ih hrest
      obtain ⟨da, db⟩ := e
      cases da with
      | none =>
        cases db with
        | none => simpa [pumpRun, joinAll] using ⟨ihB, ihA⟩
        | some d2 =>
          cases d2 with
          | nil => exact absurd rfl he2
          | cons x xs => simp [pumpRun, joinAll, ihB, ihA]
      | some d =>
        cases d with
        | nil => exact absurd rfl he1
        | cons y ys =>
          cases db with
          | none => simp [pumpRun, joinAll, ihB, ihA]
          | some d2 =>
            cases d2 with
            | nil => exact absurd rfl he2
            | cons x xs => simp [pumpRun, joinAll, ihB, ihA]
  · intro x rest; rfl

/-- Witness for C5: the concrete tunnel scenario of the spec (a CONNECT
request accepted on the first attempt) and a concrete no-EOF relay
trace. -/
theorem claim_C5_tunnel_success_witness :
    ((handle_client
        [bytes "CONNECT example.com:443 HTTP/1.1\r\nHost: example.com:443\r\n\r\n"]
        (bytes "tok") none false
        (fun n => if n = 1 then some [bytes "HTTP/1.1 200 Connection Established\r\n\r\n"] else none)).relayConn = some 1
      ∧ (handle_client
        [bytes "CONNECT example.com:443 HTTP/1.1\r\nHost: example.com:443\r\n\r\n"]
        (bytes "tok") none false
        (fun n => if n = 1 then some [bytes "HTTP/1.1 200 Connection Established\r\n\r\n"] else none)).sent = syntheticEstablished)
    ∧ (noEof [(some (bytes "ab"), none), (none, some (bytes "cd"))]
      ∧ (pumpRun [(some (bytes "ab"), none), (none, some (bytes "cd"))]).toB =
          joinAll ([(some (bytes "ab"), none), (none, some (bytes "cd"))].filterMap Prod.fst)
      ∧ (pumpRun [(some (bytes "ab"), none), (none, some (bytes "cd"))]).toA =
          joinAll ([(some (bytes "ab"), none), (none, some (bytes "cd"))].filterMap Prod.snd))
    ∧ pumpRun [((some [] : Option Bytes), (none : Option Bytes))] =
        { toB := [], toA := [], terminated := true } :=
  ⟨⟨by decide,
    claim_C5_tunnel_success.1
      [bytes "CONNECT example.com:443 HTTP/1.1\r\nHost: example.com:443\r\n\r\n"]
      (bytes "tok") none false
      (fun n => if n = 1 then some [bytes "HTTP/1.1 200 Connection Established\r\n\r\n"] else none)
      1 (by decide)⟩,
   ⟨by unfold noEof; decide,
    claim_C5_tunnel_success.2.1 [(some (bytes "ab"), none), (none, some (bytes "cd"))]
      (by unfold noEof; decide)⟩,
   claim_C5_tunnel_success.2.2 none []⟩

lemma getLastD_map_range' (f : Nat → Bytes) (s m : Nat) (d : Bytes) :
    ((List.range' s (m + 1)).map f).getLastD d = f (s + m) := by
  rw [List.range'_1_concat]
  simp

lemma negotiate_all_rejected (up : Upstream) (tgt : Bytes) :
    ∀ (ss : List (List Bytes)) (cid : Nat) (ls : Bytes) (st : NegoState),
      (∀ i, i < cid + ss.length + 1 → (up i).isSome = true) →
      (∀ i, i < cid + ss.length + 1 → statusAccepted (statusOf up i) = false) →
      negotiate up (some tgt) ss cid ls st =
        (.rejected (cid + ss.length)
           (((List.range' cid ss.length).map (statusOf up)).getLastD ls),
         { framed := st.framed ++
             (List.range' cid ss.length).zip (ss.map (connect_frame tgt)),
           statuses := st.statuses ++ (List.range' cid ss.length).map (statusOf up),
           closed := st.closed ++ List.range' cid ss.length,
           opened := st.opened + ss.length }) := by
  intro ss
  induction ss with
  | nil =>
    intro cid ls st h1 h2
    cases st
    simp [negotiate]
  | cons hs rest ih =>
    intro cid ls st h1 h2
    obtain ⟨stf, sts, stc, sto⟩ := st
    have hrej : statusAccepted (statusOf up cid) = false := h2 cid (by omega)
    have hsome : (up (cid + 1)).isSome = true := h1 (cid + 1) (by simp)
    obtain ⟨cs, hcs⟩ := Option.isSome_iff_exists.mp hsome
    have ih2 := ih (cid + 1) (statusOf up cid)
      ⟨stf ++ [(cid, connect_frame tgt hs)], sts ++ [statusOf up cid],
       stc ++ [cid], sto + 1⟩
      (by intro i hi; exact h1 i (by simp at hi ⊢; omega))
      (by intro i hi; exact h2 i (by simp at hi ⊢; omega))
    simp only [negotiate, hrej, hcs, Bool.false_eq_true, if_false]
    rw [ih2]
    have harith : cid + 1 + rest.length = cid + (rest.length + 1) := by omega
    have harith2 : sto + 1 + rest.length = sto + (rest.length + 1) := by omega
    simp only [List.length_cons, List.range'_succ, List.map_cons, List.zip_cons_cons,
      List.getLastD_cons, List.singleton_append, List.cons_append, List.append_assoc,
      List.nil_append, harith, harith2]

/-- C7 counterexample: `last_status` is overwritten by every attempt, even
by an empty response.  With two strategies, where the first attempt
observes the status line `HTTP/1.1 407 Proxy Authentication Required` and
the second attempt's response is empty, the last observed status line is
the 407 — yet the client receives the generic
`HTTP/1.1 502 Bad Gateway`, not that last observed status line. -/
theorem claim_C7_counterexample :
    (handle_client [bytes "CONNECT e:443 HTTP/1.1\r\n\r\n"] (bytes "tok") none true
        (fun n => if n = 1
           then some [bytes "HTTP/1.1 407 Proxy Authentication Required\r\n\r\n"]
           else some [])).statuses =
      [bytes "HTTP/1.1 407 Proxy Authentication Required", []]
    ∧ ((handle_client [bytes "CONNECT e:443 HTTP/1.1\r\n\r\n"] (bytes "tok") none true
        (fun n => if n = 1
           then some [bytes "HTTP/1.1 407 Proxy Authentication Required\r\n\r\n"]
           else some [])).statuses.filter (fun s => !s.isEmpty)).getLast? =
      some (bytes "HTTP/1.1 407 Proxy Authentication Required")
    ∧ (handle_client [bytes "CONNECT e:443 HTTP/1.1\r\n\r\n"] (bytes "tok") none true
        (fun n => if n = 1
           then some [bytes "HTTP/1.1 407 Proxy Authentication Required\r\n\r\n"]
           else some [])).sent = resp502line ++ crlf2
    ∧ (handle_client [bytes "CONNECT e:443 HTTP/1.1\r\n\r\n"] (bytes "tok") none true
        (fun n => if n = 1
           then some [bytes "HTTP/1.1 407 Proxy Authentication Required\r\n\r\n"]
           else some [])).sent ≠
      bytes "HTTP/1.1 407 Proxy Authentication Required" ++ crlf2 :=
  ⟨by decide, by decide, by decide, by decide⟩

/-- C7 as amended: when every strategy attempt is rejected (and every
needed connection succeeds), the client receives the status line of the
final attempt's response — or `HTTP/1.1 502 Bad Gateway` when that final
status line is empty, even if an earlier attempt observed one — followed
by a blank line, and every connection (all `n + 1` opened upstream
connections, and the client socket) is closed. -/
theorem claim_C7_amended (chunks : List Bytes) (bearer : Bytes)
    (bh : Option Bytes) (aa : Bool) (up : Upstream) (tgt : Bytes) (n : Nat)
    (hn : n = (headers_sets (normalizeToken bearer) bh aa).length)
    (hfirst : recv_until crlf2 65536 chunks [] ≠ [])
    (htgt : ((recv_until crlf2 65536 chunks []).splitOn ' ')[1]? = some tgt)
    (hconn : ∀ i, i < n + 2 → (up i).isSome = true)
    (hrej : ∀ i, i < n + 2 → statusAccepted (statusOf up i) = false) :
    handle_client chunks bearer bh aa up =
      { sent := (if statusOf up n = [] then resp502line else statusOf up n) ++ crlf2,
        relayConn := none,
        opened := n + 1,
        closed := List.range' 1 (n + 1),
        framed := (List.range' 1 n).zip
          ((headers_sets (normalizeToken bearer) bh aa).map (connect_frame tgt)),
        statuses := (List.range' 1 n).map (statusOf up),
        clientClosed := true } := by
  have hpos : 1 ≤ n := by
    rw [hn]
    exact List.length_pos.mpr (headers_sets_ne_nil _ _ _)
  obtain ⟨m, hm⟩ : ∃ m, n = m + 1 := ⟨n - 1, by omega⟩
  have hup1 : (up 1).isSome = true := hconn 1 (by omega)
  obtain ⟨cs, hcs⟩ := Option.isSome_iff_exists.mp hup1
  have hall := negotiate_all_rejected up tgt
    (headers_sets (normalizeToken bearer) bh aa) 1 []
    { framed := [], statuses := [], closed := [], opened := 1 }
    (by intro i hi; exact hconn i (by omega))
    (by intro i hi; exact hrej i (by omega))
  have hlast : ((List.range' 1 n).map (statusOf up)).getLastD [] = statusOf up n := by
    rw [hm, getLastD_map_range']
    have : 1 + m = m + 1 := by omega
    rw [this]
  simp only [handle_client, hfirst, hcs, htgt, if_neg hfirst]
  rw [hall]
  simp only [← hn, hlast]
  have h1n : 1 + n = n + 1 := by omega
  rw [List.range'_1_concat]
  simp [h1n]

/-- Witness for C7's amended statement: a one-strategy configuration and
an upstream that always answers `407`. -/
theorem claim_C7_amended_witness :
    handle_client [bytes "CONNECT e:443 HTTP/1.1\r\n\r\n"] (bytes "tok") none false
        (fun _ => some [bytes "HTTP/1.1 407 Proxy Authentication Required\r\n\r\n"]) =
      { sent := bytes "HTTP/1.1 407 Proxy Authentication Required\r\n\r\n",
        relayConn := none, opened := 2, closed := [1, 2],
        framed := [(1, connect_frame (bytes "e:443")
          [bytes "Proxy-Authorization: Bearer tok"])],
        statuses := [bytes "HTTP/1.1 407 Proxy Authentication Required"],
        clientClosed := true } := by
  have h := claim_C7_amended [bytes "CONNECT e:443 HTTP/1.1\r\n\r\n"] (bytes "tok")
    none false
    (fun _ => some [bytes "HTTP/1.1 407 Proxy Authentication Required\r\n\r\n"])
    (bytes "e:443") 1 (by decide) (by decide) (by decide) (by decide) (by decide)
  exact h.trans (by decide)

lemma negotiate_established_at (up : Upstream) (tgt : Bytes) :
    ∀ (k : Nat) (ss : List (List Bytes)) (cid : Nat) (ls : Bytes) (st : NegoState),
      k < ss.length →
      (∀ i, i < cid + k → statusAccepted (statusOf up i) = false) →
      (∀ i, i < cid + k + 1 → (up i).isSome = true) →
      statusAccepted (statusOf up (cid + k)) = true →
      negotiate up (some tgt) ss cid ls st =
        (.established (cid + k) (statusOf up (cid + k)),
         { framed := st.framed ++ (List.range' cid (k + 1)).zip
             ((ss.take (k + 1)).map (connect_frame tgt)),
           statuses := st.statuses ++ (List.range' cid (k + 1)).map (statusOf up),
           closed := st.closed ++ List.range' cid k,
           opened := st.opened + k }) := by
  intro k
  induction k with
  | zero =>
    intro ss cid ls st hk hrej hconn hacc
    cases ss with
    | nil => simp at hk
    | cons hs rest =>
      obtain ⟨stf, sts, stc, sto⟩ := st
      rw [Nat.add_zero] at hacc
      simp [negotiate, hacc]
  | succ k ihk =>
    intro ss cid ls st hk hrej hconn hacc
    cases ss with
    | nil => simp at hk
    | cons hs rest =>
      obtain ⟨stf, sts, stc, sto⟩ := st
      have hrej0 : statusAccepted (statusOf up cid) = false := hrej cid (by omega)
      have hsome : (up (cid + 1)).isSome = true := hconn (cid + 1) (by omega)
      obtain ⟨cs, hcs⟩ := Option.isSome_iff_exists.mp hsome
      have harr : cid + 1 + k = cid + (k + 1) := by omega
      have ih2 := ihk rest (cid + 1) (statusOf up cid)
        ⟨stf ++ [(cid, connect_frame tgt hs)], sts ++ [statusOf up cid],
         stc ++ [cid], sto + 1⟩
        (by simpa using Nat.lt_of_succ_lt_succ (by simpa [Nat.succ_eq_add_one] using hk))
        (by intro i hi; exact hrej i (by omega))
        (by intro i hi; exact hconn i (by omega))
        (by rw [harr]; exact hacc)
      simp only [negotiate, hrej0, hcs, Bool.false_eq_true, if_false]
      rw [ih2]
      have harith2 : sto + 1 + k = sto + (k + 1) := by omega
      simp only [List.take_succ_cons, List.range'_succ, List.map_cons,
        List.zip_cons_cons, List.singleton_append, List.cons_append,
        List.append_assoc, List.nil_append, harr, harith2]

/-- C6: every strategy attempt is sent on a brand-new upstream
connection — the connection ids used by the attempts of any run are the
consecutive fresh ids `1, 2, …, k` with no id ever reused — and in the
concrete fallback scenario (first two strategies rejected, third
accepted) exactly three upstream connections are opened, connections 1
and 2 are closed after their rejection, and only connection 3 carries the
relay. -/
theorem claim_C6_fresh_connection_per_attempt :
    (∀ chunks bearer bh aa up, ∃ k,
        (handle_client chunks bearer bh aa up).framed.map Prod.fst =
          List.range' 1 k
        ∧ ((handle_client chunks bearer bh aa up).framed.map Prod.fst).Nodup)
    ∧ (∀ chunks bearer b up tgt,
        b ≠ [] →
        recv_until crlf2 65536 chunks [] ≠ [] →
        ((recv_until crlf2 65536 chunks []).splitOn ' ')[1]? = some tgt →
        (∀ i, i < 3 → statusAccepted (statusOf up i) = false) →
        (∀ i, i < 4 → (up i).isSome = true) →
        statusAccepted (statusOf up 3) = true →
        (handle_client chunks bearer (some b) true up).opened = 3
        ∧ (handle_client chunks bearer (some b) true up).relayConn = some 3
        ∧ (handle_client chunks bearer (some b) true up).closed = [1, 2]
        ∧ (handle_client chunks bearer (some b) true up).framed.map Prod.fst =
            [1, 2, 3]) := by
  constructor
  · intro chunks bearer bh aa up
    by_cases hfst : recv_until crlf2 65536 chunks [] = []
    · exact ⟨0, by simp [handle_client, hfst], by simp [handle_client, hfst]⟩
    · cases hup : up 1 with
      | none => exact ⟨0, by simp [handle_client, hfst, hup], by simp [handle_client, hfst, hup]⟩
      | some cs =>
        obtain ⟨ext, he, hm⟩ := negotiate_framed_ids up
          ((recv_until crlf2 65536 chunks []).splitOn ' ')[1]?
          (headers_sets (normalizeToken bearer) bh aa) 1 []
          { framed := [], statuses := [], closed := [], opened := 1 }
        rcases hneg : negotiate up ((recv_until crlf2 65536 chunks []).splitOn ' ')[1]?
            (headers_sets (normalizeToken bearer) bh aa) 1 []
            { framed := [], statuses := [], closed := [], opened := 1 }
          with ⟨out, st⟩
        rw [hneg] at he
        simp only [List.nil_append] at he
        refine ⟨ext.length, ?_, ?_⟩ <;>
          cases out <;> simp [handle_client, hfst, hup, hneg, he, hm, List.nodup_range']
  · intro chunks bearer b up tgt hb hfirst htgt hrej hconn hacc
    have hlen : (headers_sets (normalizeToken bearer) (some b) true).length = 4 := by
      simp [headers_sets, hb]
    have hup1 : (up 1).isSome = true := hconn 1 (by omega)
    obtain ⟨cs, hcs⟩ := Option.isSome_iff_exists.mp hup1
    have hest := negotiate_established_at up tgt 2
      (headers_sets (normalizeToken bearer) (some b) true) 1 []
      { framed := [], statuses := [], closed := [], opened := 1 }
      (by omega) (by intro i hi; exact hrej i (by omega))
      (by intro i hi; exact hconn i (by omega)) hacc
    simp only [handle_client, if_neg hfirst, hcs, htgt]
    rw [hest]
    refine ⟨rfl, rfl, by simp [List.range'], ?_⟩
    simp [headers_sets, hb, List.range', connect_frame]

/-- Witness for C6: the concrete 407/407/200 upstream opens exactly three
connections and relays on the third. -/
theorem claim_C6_fresh_connection_per_attempt_witness :
    (∃ k, (handle_client [bytes "CONNECT e:443 HTTP/1.1\r\n\r\n"] (bytes "tok")
        (some (bytes "Basic x")) true
        (fun i => if i = 3 then some [bytes "HTTP/1.1 200 OK\r\n\r\n"]
                  else some [bytes "HTTP/1.1 407 NO\r\n\r\n"])).framed.map Prod.fst =
          List.range' 1 k
      ∧ ((handle_client [bytes "CONNECT e:443 HTTP/1.1\r\n\r\n"] (bytes "tok")
        (some (bytes "Basic x")) true
        (fun i => if i = 3 then some [bytes "HTTP/1.1 200 OK\r\n\r\n"]
                  else some [bytes "HTTP/1.1 407 NO\r\n\r\n"])).framed.map Prod.fst).Nodup)
    ∧ ((handle_client [bytes "CONNECT e:443 HTTP/1.1\r\n\r\n"] (bytes "tok")
        (some (bytes "Basic x")) true
        (fun i => if i = 3 then some [bytes "HTTP/1.1 200 OK\r\n\r\n"]
                  else some [bytes "HTTP/1.1 407 NO\r\n\r\n"])).opened = 3
      ∧ (handle_client [bytes "CONNECT e:443 HTTP/1.1\r\n\r\n"] (bytes "tok")
        (some (bytes "Basic x")) true
        (fun i => if i = 3 then some [bytes "HTTP/1.1 200 OK\r\n\r\n"]
                  else some [bytes "HTTP/1.1 407 NO\r\n\r\n"])).relayConn = some 3
      ∧ (handle_client [bytes "CONNECT e:443 HTTP/1.1\r\n\r\n"] (bytes "tok")
        (some (bytes "Basic x")) true
        (fun i => if i = 3 then some [bytes "HTTP/1.1 200 OK\r\n\r\n"]
                  else some [bytes "HTTP/1.1 407 NO\r\n\r\n"])).closed = [1, 2]
      ∧ (handle_client [bytes "CONNECT e:443 HTTP/1.1\r\n\r\n"] (bytes "tok")
        (some (bytes "Basic x")) true
        (fun i => if i = 3 then some [bytes "HTTP/1.1 200 OK\r\n\r\n"]
                  else some [bytes "HTTP/1.1 407 NO\r\n\r\n"])).framed.map Prod.fst =
          [1, 2, 3]) :=
  ⟨claim_C6_fresh_connection_per_attempt.1
     [bytes "CONNECT e:443 HTTP/1.1\r\n\r\n"] (bytes "tok")
     (some (bytes "Basic x")) true
     (fun i => if i = 3 then some [bytes "HTTP/1.1 200 OK\r\n\r\n"]
               else some [bytes "HTTP/1.1 407 NO\r\n\r\n"]),
   claim_C6_fresh_connection_per_attempt.2
     [bytes "CONNECT e:443 HTTP/1.1\r\n\r\n"] (bytes "tok") (bytes "Basic x")
     (fun i => if i = 3 then some [bytes "HTTP/1.1 200 OK\r\n\r\n"]
               else some [bytes "HTTP/1.1 407 NO\r\n\r\n"])
     (bytes "e:443") (by decide) (by decide) (by decide) (by decide)
     (by decide) (by decide)⟩

lemma isProxyAuthLine_of_pa (p v : Bytes)
    (hp : (bytes "proxy-authorization:").isPrefixOf (p.map asciiLower) = true) :
    isProxyAuthLine (p ++ v) = true := by
  unfold isProxyAuthLine
  rw [List.map_append, List.isPrefixOf_iff_prefix]
  rw [ List.isPrefixOf_iff_prefix] at hp
  exact hp.trans (List.prefix_append _ _)

/-- C1 (modelled from the spec, see `forwardFrameLines`): the forwarded
(non-CONNECT) upstream request re-emits the original request line first
and unchanged, copies every original header line except any
`Proxy-Authorization` line (matched case-insensitively, all of which are
stripped), appends the candidate header set and `Connection: keep-alive`,
terminates the header block with an empty line and appends the buffered
body bytes; consequently the framed request carries exactly as many
`Proxy-Authorization` lines as the injected strategy — exactly one for a
Bearer strategy — and never an original one. -/
theorem claim_C1_forwarded_request_framing (reqLine : Bytes)
    (hdrs strategy : List Bytes) (body tok : Bytes)
    (hreq : isProxyAuthLine reqLine = false) :
    forward_frame reqLine hdrs strategy body =
      joinAll ((forwardFrameLines reqLine hdrs strategy).map (fun l => l ++ crlf))
        ++ crlf ++ body
    ∧ forwardFrameLines reqLine hdrs strategy =
        [reqLine] ++ hdrs.filter (fun h => !isProxyAuthLine h) ++ strategy
          ++ [bytes "Connection: keep-alive"]
    ∧ (∀ h ∈ hdrs, isProxyAuthLine h = false →
        h ∈ forwardFrameLines reqLine hdrs strategy)
    ∧ (∀ h ∈ hdrs, isProxyAuthLine h = true → h ∉ strategy → h ≠ reqLine →
        h ∉ forwardFrameLines reqLine hdrs strategy)
    ∧ countProxyAuth (forwardFrameLines reqLine hdrs strategy) =
        countProxyAuth strategy
    ∧ countProxyAuth (forwardFrameLines reqLine hdrs
        [bytes "Proxy-Authorization: Bearer " ++ tok]) = 1 := by
  have hka : isProxyAuthLine (bytes "Connection: keep-alive") = false := by decide
  have hcount : ∀ strat, countProxyAuth (forwardFrameLines reqLine hdrs strat) =
      countProxyAuth strat := by
    intro strat
    simp [countProxyAuth, forwardFrameLines, List.filter_append, hreq, hka,
      List.filter_filter]
  refine ⟨rfl, rfl, ?_, ?_, hcount strategy, ?_⟩
  · intro h hmem hpa
    simp [forwardFrameLines, List.mem_append, List.mem_filter, hmem, hpa]
  · intro h hmem hpa hstrat hne
    simp only [forwardFrameLines, List.append_assoc, List.mem_append,
      List.mem_filter, List.mem_singleton, List.mem_cons,
      List.not_mem_nil, or_false, not_or]
    refine ⟨hne, ?_, hstrat, ?_⟩
    · rintro ⟨-, hq⟩
      rw [hpa] at hq
      simp at hq
    · intro hq
      rw [hq] at hpa
      exact absurd hpa (by decide)
  · rw [hcount [bytes "Proxy-Authorization: Bearer " ++ tok]]
    have hpa1 : isProxyAuthLine (bytes "Proxy-Authorization: Bearer " ++ tok) = true :=
      isProxyAuthLine_of_pa _ tok (by decide)
    simp [countProxyAuth, hpa1]

/-- Witness for C1 at the spec's P7 example: a plain HTTP request whose
original headers carry `Proxy-Authorization: Bogus xyz`. -/
theorem claim_C1_forwarded_request_framing_witness :
    isProxyAuthLine (bytes "GET http://example.com/ HTTP/1.1") = false
    ∧ (bytes "Proxy-Authorization: Bogus xyz" ∈
        [bytes "Host: example.com", bytes "Proxy-Authorization: Bogus xyz"]
      ∧ isProxyAuthLine (bytes "Proxy-Authorization: Bogus xyz") = true
      ∧ bytes "Proxy-Authorization: Bogus xyz" ∉
          forwardFrameLines (bytes "GET http://example.com/ HTTP/1.1")
            [bytes "Host: example.com", bytes "Proxy-Authorization: Bogus xyz"]
            [bytes "Proxy-Authorization: Bearer " ++ bytes "abc123"])
    ∧ countProxyAuth (forwardFrameLines (bytes "GET http://example.com/ HTTP/1.1")
        [bytes "Host: example.com", bytes "Proxy-Authorization: Bogus xyz"]
        [bytes "Proxy-Authorization: Bearer " ++ bytes "abc123"]) = 1 := by
  have h := claim_C1_forwarded_request_framing
    (bytes "GET http://example.com/ HTTP/1.1")
    [bytes "Host: example.com", bytes "Proxy-Authorization: Bogus xyz"]
    [bytes "Proxy-Authorization: Bearer " ++ bytes "abc123"]
    (bytes "XY") (bytes "abc123") (by decide)
  refine ⟨by decide, ⟨by decide, by decide, ?_⟩, h.2.2.2.2.2⟩
  exact h.2.2.2.1 (bytes "Proxy-Authorization: Bogus xyz") (by decide)
    (by decide) (by decide) (by decide)

end BearerProxy

